import Mathlib

set_option autoImplicit false

/-!
# Validating admission webhook server: rule registry, validation engine, protocol handler

A shallow embedding of `validator.go` (`Validator.AddRule`, `Validator.Validate`) and of
`webhook.go` (`WebhookServer.validate`, `WebhookServer.serve`).

Go values of type `error` are `Option String`: `none` is `nil`, `some s` is an error whose
`Error()` text is `s`.  The third-party packages the program calls (`jsonpath`, `regexp`, the
admission decoder, `encoding/json`) are the fields of `Library`; every theorem is stated for an
arbitrary library.  `strings.Join` and `fmt.Errorf` called with a format and no operands are
embedded concretely, since the text of the errors built by the program depends on them.
-/

namespace Webhook

/-! ## Go standard library: `strings.Join` -/

namespace strings

/-- Go `strings.Join(elems, sep)`: nothing for no element, the element itself for one, otherwise
the first element followed by `sep` and the next element, for each further element. -/
def Join : List String → String → String
  | [], _ => ""
  | [a], _ => a
  | a :: rest, sep => rest.foldl (fun b s => b ++ sep ++ s) a

end strings

/-! ## Go standard library: `fmt` formatting of a format string with no operands

`fmt.Errorf(format)` is `errors.New(fmt.Sprintf(format))`, and `Sprintf` runs `doPrintf` with
an empty operand list `a`.  With `len(a) = 0` no verb ever finds an operand, `argNum` stays `0`
and the trailing check for extra operands writes nothing. -/

namespace fmt

/-- Go `percentBangString`, `missingString`, `badIndexString`. -/
def percentBangString : List Char := "%!".data
/-- Text written for a verb with no operand left. -/
def missingString : List Char := "(MISSING)".data
/-- Text written for a verb with a bad argument index. -/
def badIndexString : List Char := "(BADINDEX)".data
/-- Text written for a percent sign with no verb. -/
def noVerbString : List Char := "%!(NOVERB)".data
/-- Text written for a `*` width with no integer operand. -/
def badWidthString : List Char := "%!(BADWIDTH)".data
/-- Text written for a `*` precision with no integer operand. -/
def badPrecString : List Char := "%!(BADPREC)".data

/-- Go `tooLarge`: the bound on widths, precisions and argument indexes. -/
def tooLarge (x : Nat) : Bool := decide (x > 1000000)

/-- Go `parsenum(s, start, end)` on the window `s[start:end]` given as a list: the result is
`isnum` and the part of the window from `newi` on.  On overflow Go returns `newi = end`. -/
def parsenum : List Char → Nat → Bool → Bool × List Char
  | [], _, isnum => (isnum, [])
  | c :: cs, num, isnum =>
    if '0' ≤ c ∧ c ≤ '9' then
      if tooLarge num then (false, [])
      else parsenum cs (num * 10 + (c.toNat - '0'.toNat)) true
    else (isnum, c :: cs)

/-- Go `parseArgNumber(format[i:])` where `format[i]` is the opening bracket and `cs` is what
follows it: the result is what follows the consumed width `wid`, and `ok`. -/
def parseArgNumber (cs : List Char) : List Char × Bool :=
  if cs.length + 1 < 3 then (cs, false)
  else
    match cs.dropWhile (fun c => c ≠ ']') with
    | [] => (cs, false)
    | _ :: after =>
      let r := parsenum (cs.takeWhile (fun c => c ≠ ']')) 0 false
      (after, r.1 && r.2.isEmpty)

/-- Go `(*pp).argNumber` with `numArgs = 0`: the result is the rest of the format, `found`
(assigned to `afterIndex`) and the new value of `p.goodArgNum`.  No index is below `numArgs`,
so a bracket always clears `goodArgNum`. -/
def argNumber (s : List Char) (goodArgNum : Bool) : List Char × Bool × Bool :=
  match s with
  | [] => ([], false, goodArgNum)
  | c :: cs =>
    if c = '[' then ((parseArgNumber cs).1, (parseArgNumber cs).2, false)
    else (c :: cs, false, goodArgNum)

/-- The flag loop of `doPrintf`: `#`, `0`, `+`, `-` and the blank are consumed; the fast path
for a lower-case verb needs `argNum < len(a)` and is never taken. -/
def skipFlags : List Char → List Char
  | [] => []
  | c :: cs =>
    if c = '#' ∨ c = '0' ∨ c = '+' ∨ c = '-' ∨ c = ' ' then skipFlags cs else c :: cs

/-- The width part of one verb: text written, rest of the format, `afterIndex`, `goodArgNum`. -/
def width (s : List Char) (afterIndex goodArgNum : Bool) :
    List Char × List Char × Bool × Bool :=
  match s with
  | [] => ([], [], afterIndex, goodArgNum)
  | c :: cs =>
    if c = '*' then (badWidthString, cs, false, goodArgNum)
    else
      let r := parsenum (c :: cs) 0 false
      ([], r.2, afterIndex, goodArgNum && !(afterIndex && r.1))

/-- The precision part of one verb: text written, rest of the format, `afterIndex`,
`goodArgNum`.  The guard is `i+1 < end && format[i] == '.'`: a dot that ends the format is not
a precision, it is left to be read as the verb. -/
def precision (s : List Char) (afterIndex goodArgNum : Bool) :
    List Char × List Char × Bool × Bool :=
  match s with
  | [] => ([], [], afterIndex, goodArgNum)
  | c :: cs =>
    if c = '.' ∧ cs ≠ [] then
      let a := argNumber cs (goodArgNum && !afterIndex)
      match a.1 with
      | [] => ([], [], a.2.1, a.2.2)
      | d :: ds =>
        if d = '*' then (badPrecString, ds, false, a.2.2)
        else ([], (parsenum (d :: ds) 0 false).2, a.2.1, a.2.2)
    else ([], c :: cs, afterIndex, goodArgNum)

/-- The end of one verb, from the verb rune on: text written and rest of the format. -/
def verbText (s : List Char) (goodArgNum : Bool) : List Char × List Char :=
  match s with
  | [] => (noVerbString, [])
  | v :: rest =>
    if v = '%' then (['%'], rest)
    else if !goodArgNum then (percentBangString ++ v :: badIndexString, rest)
    else (percentBangString ++ v :: missingString, rest)

/-- One verb of `doPrintf`, given what follows the percent sign: the text written and the rest
of the format. -/
def verb (s : List Char) : List Char × List Char :=
  let a := argNumber (skipFlags s) true
  let w := width a.1 a.2.1 a.2.2
  let p := precision w.2.1 w.2.2.1 w.2.2.2
  let b := if p.2.2.1 then (p.2.1, p.2.2.1, p.2.2.2) else argNumber p.2.1 p.2.2.2
  let t := verbText b.1 b.2.2
  (w.1 ++ p.1 ++ t.1, t.2)

/-- Go `(*pp).doPrintf(format, a)` with `a` empty: text other than a percent sign is copied,
a percent sign starts a verb.  The first argument bounds the number of loop rounds. -/
def doPrintf : Nat → List Char → List Char
  | 0, _ => []
  | _ + 1, [] => []
  | n + 1, c :: cs =>
    if c = '%' then (verb cs).1 ++ doPrintf n (verb cs).2 else c :: doPrintf n cs

/-- Go `fmt.Sprintf(format)` with no operands.  Each round of `doPrintf` consumes a character,
so `format.length` rounds reach the end of the format (`doPrintf_fuel`). -/
def Sprintf (format : String) : String := ⟨doPrintf format.length format.data⟩

/-- Go `fmt.Errorf(format)` with no operands: the text of the error it returns. -/
def Errorf (format : String) : String := Sprintf format

end fmt

/-! ## Third-party packages -/

/-- Go `[]byte`. -/
abbrev Bytes := List UInt8

/-- Go `v1beta1.AdmissionRequest`, with the fields the program reads: `UID`, `Kind.Kind`,
`Name`, `Operation` and `Object.Raw`. -/
structure AdmissionRequest where
  UID : String
  Kind : String
  Name : String
  Operation : String
  Raw : Bytes
  deriving DecidableEq, Repr

/-- Go `v1beta1.AdmissionResponse`, with the fields the program writes: `UID`, `Allowed` and
`Result.Message` (`serve` always allocates `Result`). -/
structure AdmissionResponse where
  UID : String
  Allowed : Bool
  Message : String
  deriving DecidableEq, Repr

/-- Go `v1beta1.AdmissionReview` as decoded from a request body: `Request` is a pointer and
is `none` when the body carries no request object. -/
structure AdmissionReview where
  Request : Option AdmissionRequest
  deriving DecidableEq, Repr

/-- The packages `validator.go` and `webhook.go` call, as an interface.
* `parse name text` is `jsonpath.New(name)`, `AllowMissingKeys(true)`, `Parse(text)`;
* `compile` is `regexp.Compile`;
* `execute jp object` is `jp.Execute(buf, object)` followed by `buf.String()`;
* `matchString re s` is `re.MatchString(s)`;
* `unmarshal raw` is `json.Unmarshal(raw, &object)` into a `PodSecurityPolicy`;
* `decode body` is `deserializer.Decode(body, nil, &ar)`;
* `marshal` is `json.Marshal` of the review that holds the response;
* `write` is `w.Write`, returning its error. -/
structure Library where
  JSONPath : Type
  Regexp : Type
  Object : Type
  parse : String → String → Except String JSONPath
  compile : String → Except String Regexp
  execute : JSONPath → Object → Except String String
  matchString : Regexp → String → Bool
  unmarshal : Bytes → Except String Object
  decode : Bytes → Except String AdmissionReview
  marshal : AdmissionResponse → Except String Bytes
  write : Bytes → Option String

/-! ## `validator.go` -/

/-- Go `ConfigRule` (declared in `webhook.go`). -/
structure ConfigRule where
  Name : String
  Jsonpath : String
  Regexp : String
  Message : String
  deriving DecidableEq, Repr

/-- Go `ValidatorRule`: the parsed JSONPath, the compiled regexp (`none` is the nil pointer),
the message and the name. -/
structure ValidatorRule (L : Library) where
  jsonpath : L.JSONPath
  regexp : Option L.Regexp
  message : String
  name : String

/-- Go `Validator`: `rules` is a `map[string][]ValidatorRule`; a key that is absent reads as
the nil slice, which is the empty sequence. -/
structure Validator (L : Library) where
  rules : String → List (ValidatorRule L)

/-- Go `NewValidator`: the empty map. -/
def NewValidator (L : Library) : Validator L := ⟨fun _ => []⟩

/-- Go `Validator.AddRule`: the error returned and the validator after the call. -/
def Validator.AddRule {L : Library} (v : Validator L) (kind : String) (rule : ConfigRule) :
    Option String × Validator L :=
  if kind = "" then (some (fmt.Errorf "Kind can't be empty"), v)
  else if rule.Jsonpath = "" then (some (fmt.Errorf "JSONPath can't be empty"), v)
  else if rule.Name = "" then (some (fmt.Errorf "Rule name can't be empty"), v)
  else
    match L.parse (kind ++ " " ++ rule.Name) rule.Jsonpath with
    | .error err => (some err, v)
    | .ok jsonpath =>
      let validator_rule : ValidatorRule L :=
        { jsonpath := jsonpath, regexp := none, message := rule.Message, name := rule.Name }
      let appended (r : ValidatorRule L) : Validator L :=
        ⟨fun k => if k = kind then v.rules kind ++ [r] else v.rules k⟩
      if rule.Regexp ≠ "" then
        match L.compile rule.Regexp with
        | .error err => (some err, v)
        | .ok regexp => (none, appended { validator_rule with regexp := some regexp })
      else (none, appended validator_rule)

/-- One round of the loop of `Validator.Validate`: the slice `errors` after the round. -/
def Validator.step {L : Library} (object : L.Object) (errors : List String)
    (rule : ValidatorRule L) : List String :=
  match L.execute rule.jsonpath object with
  | .error _ => errors ++ ["Failed to validate object"]
  | .ok output =>
    match rule.regexp with
    | some regexp =>
      if L.matchString regexp output then errors ++ [rule.message] else errors
    | none =>
      if output ≠ "" then errors ++ [rule.message] else errors

/-- The loop of `Validator.Validate` over a rule slice: the slice `errors` after the loop. -/
def Validator.errors {L : Library} (rules : List (ValidatorRule L)) (object : L.Object) :
    List String :=
  rules.foldl (Validator.step object) []

/-- Go `Validator.Validate`: the error returned.  The `uid` is only logged. -/
def Validator.Validate {L : Library} (v : Validator L) (_uid : String) (kind : String)
    (object : L.Object) : Option String :=
  let errors := Validator.errors (v.rules kind) object
  if errors.length > 0 then some (fmt.Errorf (strings.Join errors ", ")) else none

/-! ## `webhook.go` -/

/-- Go `WebhookServer`: the validator (the `http.Server` reference plays no part in a
decision). -/
structure WebhookServer (L : Library) where
  validator : Validator L

/-- Go `WebhookServer.validate`: the response after the call, or `none` when the call
dereferences the nil `ar.Request`. -/
def WebhookServer.validate {L : Library} (whsvr : WebhookServer L) (ar : AdmissionReview)
    (response : AdmissionResponse) : Option AdmissionResponse :=
  match ar.Request with
  | none => none
  | some req =>
    if req.Operation = "CREATE" ∨ req.Operation = "UPDATE" then
      if req.Kind = "PodSecurityPolicy" then
        match L.unmarshal req.Raw with
        | .error err => some { response with Message := err }
        | .ok object =>
          match whsvr.validator.Validate req.UID req.Kind object with
          | some err => some { response with Message := err }
          | none => some { response with Allowed := true }
      else some { response with Message := "Kind not supported" }
    else some { response with Message := "Operation not supported" }

/-- Go `*http.Request`, with what `serve` reads: `Body` (`none` is the nil body, otherwise the
result of `ioutil.ReadAll`) and the `Content-Type` header. -/
structure Request where
  Body : Option (Except String Bytes)
  ContentType : String

/-- A call on the `http.ResponseWriter`. -/
inductive Call where
  | Error (text : String) (code : Nat)
  | Write (body : Bytes)
  deriving DecidableEq, Repr

/-- What `serve` did: the calls on the response writer, in order, and the response of the
`admissionReview` it built, when it got that far. -/
structure Served where
  calls : List Call
  response : Option AdmissionResponse
  deriving DecidableEq, Repr

/-- Go `http.StatusBadRequest`. -/
def StatusBadRequest : Nat := 400
/-- Go `http.StatusUnsupportedMediaType`. -/
def StatusUnsupportedMediaType : Nat := 415
/-- Go `http.StatusInternalServerError`. -/
def StatusInternalServerError : Nat := 500

/-- The end of `serve`: encode the response and send it.  A failed `json.Marshal` is reported
and the nil slice is written all the same. -/
def send (L : Library) (response : AdmissionResponse) : Served :=
  let enc : List Call × Bytes :=
    match L.marshal response with
    | .error err => ([Call.Error ("Could not encode response: " ++ err) StatusInternalServerError], [])
    | .ok resp => ([], resp)
  let sent : List Call :=
    match L.write enc.2 with
    | some err => [Call.Write enc.2, Call.Error ("Could not write response: " ++ err) StatusInternalServerError]
    | none => [Call.Write enc.2]
  { calls := enc.1 ++ sent, response := some response }

/-- Go `WebhookServer.serve`: what it did, or `none` when it dereferences the nil
`ar.Request`. -/
def WebhookServer.serve {L : Library} (whsvr : WebhookServer L) (r : Request) :
    Option Served :=
  let read : Except String Bytes :=
    match r.Body with
    | none => .ok []
    | some data => data
  match read with
  | .error _ => some ⟨[Call.Error "Failed to read request body" StatusBadRequest], none⟩
  | .ok body =>
    if body.length = 0 then some ⟨[Call.Error "Request body empty" StatusBadRequest], none⟩
    else if r.ContentType ≠ "application/json" then
      some ⟨[Call.Error "Invalid content type. Expected \x60application/json\x60"
        StatusUnsupportedMediaType], none⟩
    else
      let response : AdmissionResponse := { UID := "", Allowed := false, Message := "" }
      match L.decode body with
      | .error err => some (send L { response with Message := err })
      | .ok ar =>
        match ar.Request with
        | none => none
        | some req =>
          match whsvr.validate ar { response with UID := req.UID } with
          | none => none
          | some response => some (send L response)

/-! ## What the claims speak of -/

/-- A rule rejects an object, in the words of the specification: its extraction fails, or its
regexp matches the extracted text, or it has no regexp and the extracted text is non-empty. -/
def ValidatorRule.rejects {L : Library} (rule : ValidatorRule L) (object : L.Object) : Prop :=
  (∃ err, L.execute rule.jsonpath object = .error err) ∨
  (∃ t regexp, L.execute rule.jsonpath object = .ok t ∧ rule.regexp = some regexp ∧
    L.matchString regexp t = true) ∨
  (∃ t, L.execute rule.jsonpath object = .ok t ∧ rule.regexp = none ∧ t ≠ "")

/-! ## A concrete library, for the examples

Objects are flat JSON objects with string fields (Go `map[string]string`, as in
`validator_test.go`); templates are `\x7b.key\x7d` and `\x7b.key[0]\x7d`; patterns are
literal words.  The decoders know the documents of the examples. -/

namespace Sample

/-- The bytes of an ASCII text. -/
def ascii (s : String) : Bytes := s.data.map (fun c => UInt8.ofNat c.toNat)

/-- A parsed template: the key looked up, and whether element `0` of the value is taken. -/
structure Path where
  key : List Char
  indexed : Bool
  deriving DecidableEq, Repr

/-- Parsing of the templates `\x7b.key\x7d` and `\x7b.key[0]\x7d`. -/
def parse (_name : String) (text : String) : Except String Path :=
  match text.data with
  | a :: b :: rest =>
    if a = '\x7b' ∧ b = '.' ∧ rest.takeWhile Char.isAlphanum ≠ [] then
      if rest.dropWhile Char.isAlphanum = ['\x7d'] then
        .ok ⟨rest.takeWhile Char.isAlphanum, false⟩
      else if rest.dropWhile Char.isAlphanum = ['[', '0', ']', '\x7d'] then
        .ok ⟨rest.takeWhile Char.isAlphanum, true⟩
      else .error "unrecognized template"
    else .error "unrecognized template"
  | _ => .error "unrecognized template"

/-- Execution of a template on a string map: a missing key gives no output (missing keys are
allowed), a string value is printed, and taking an element of a string value fails. -/
def execute (path : Path) (object : List (String × String)) : Except String String :=
  match object.lookup ⟨path.key⟩ with
  | none => .ok ""
  | some value => if path.indexed then .error "string is not array or slice" else .ok value

/-- Compilation of a literal word. -/
def compile (expr : String) : Except String String :=
  if expr.data.all (fun c => c.isAlphanum || c == ' ') then .ok expr
  else .error "unrecognized pattern"

/-- A literal word matches a text that holds it somewhere. -/
def matchString (word : String) (s : String) : Bool :=
  s.data.tails.any (fun t => word.data.isPrefixOf t)

/-- The embedded object of the examples. -/
def objectText : String :=
  "\x7b\"apiVersion\":\"policy/v1beta1\",\"kind\":\"PodSecurityPolicy\"\x7d"

/-- The decoded object of the examples. -/
def object : List (String × String) :=
  [("apiVersion", "policy/v1beta1"), ("kind", "PodSecurityPolicy")]

/-- Decoding of the embedded object of the examples. -/
def unmarshal (raw : Bytes) : Except String (List (String × String)) :=
  if raw = ascii objectText then .ok object else .error "unexpected end of JSON input"

/-- The request body of the examples: a review that asks to create the object. -/
def bodyText : String :=
  "\x7b\"apiVersion\":\"admission.k8s.io/v1beta1\",\"kind\":\"AdmissionReview\"," ++
  "\"request\":\x7b\"uid\":\"u-1\",\"kind\":\x7b\"group\":\"policy\"," ++
  "\"version\":\"v1beta1\",\"kind\":\"PodSecurityPolicy\"\x7d,\"name\":\"psp\"," ++
  "\"operation\":\"CREATE\",\"object\":" ++ objectText ++ "\x7d\x7d"

/-- The decoded request of the examples. -/
def request : AdmissionRequest :=
  { UID := "u-1", Kind := "PodSecurityPolicy", Name := "psp", Operation := "CREATE",
    Raw := ascii objectText }

/-- A request body that is a review with no `request` member. -/
def bareText : String :=
  "\x7b\"apiVersion\":\"admission.k8s.io/v1beta1\",\"kind\":\"AdmissionReview\"\x7d"

/-- Decoding of the request bodies of the examples: the review `bodyText`, and the review
`bareText`, which decodes with the `Request` pointer left nil. -/
def decode (body : Bytes) : Except String AdmissionReview :=
  if body = ascii bodyText then .ok ⟨some request⟩
  else if body = ascii bareText then .ok ⟨none⟩
  else .error "couldn\x27t get version/kind; json parse error"

/-- Encoding of a response. -/
def marshal (response : AdmissionResponse) : Except String Bytes :=
  .ok (ascii ("\x7b\"response\":\x7b\"uid\":\"" ++ response.UID ++ "\",\"allowed\":" ++
    toString response.Allowed ++ ",\"status\":\x7b\"message\":\"" ++ response.Message ++
    "\"\x7d\x7d\x7d"))

/-- The concrete library. -/
def library : Library where
  JSONPath := Path
  Regexp := String
  Object := List (String × String)
  parse := parse
  compile := compile
  execute := execute
  matchString := matchString
  unmarshal := unmarshal
  decode := decode
  marshal := marshal
  write := fun _ => none

/-- A server whose validator holds one rule for `PodSecurityPolicy`: no regexp and no
message, on `.apiVersion`. -/
def server : WebhookServer library :=
  ⟨((NewValidator library).AddRule "PodSecurityPolicy"
    ⟨"no-api-version", "\x7b.apiVersion\x7d", "", ""⟩).2⟩

/-- The request of the examples: the body `bodyText`, declared as JSON. -/
def httpRequest : Request :=
  { Body := some (.ok (ascii bodyText)), ContentType := "application/json" }

/-- A request whose body is the review with no `request` member, declared as JSON. -/
def bareRequest : Request :=
  { Body := some (.ok (ascii bareText)), ContentType := "application/json" }

end Sample

/-! ## Lemmas on `fmt` -/

namespace fmt

theorem skipFlags_length (s : List Char) : (skipFlags s).length ≤ s.length := by
  induction s with
  | nil => simp [skipFlags]
  | cons c cs ih =>
    unfold skipFlags
    split
    · exact Nat.le_succ_of_le ih
    · exact Nat.le_refl _

theorem parsenum_length (s : List Char) (num : Nat) (isnum : Bool) :
    (parsenum s num isnum).2.length ≤ s.length := by
  induction s generalizing num isnum with
  | nil => simp [parsenum]
  | cons c cs ih =>
    unfold parsenum
    split
    · split
      · simp
      · exact Nat.le_succ_of_le (ih _ _)
    · exact Nat.le_refl _

theorem dropWhile_length (p : Char → Bool) (s : List Char) :
    (s.dropWhile p).length ≤ s.length := by
  induction s with
  | nil => simp
  | cons c cs ih =>
    rw [List.dropWhile_cons]
    split
    · exact Nat.le_succ_of_le ih
    · exact Nat.le_refl _

theorem parseArgNumber_length (cs : List Char) : (parseArgNumber cs).1.length ≤ cs.length := by
  unfold parseArgNumber
  split
  · exact Nat.le_refl _
  · split
    · exact Nat.le_refl _
    · rename_i after h
      have := dropWhile_length (fun c => c ≠ ']') cs
      rw [h] at this
      simp at this
      simp
      omega

theorem argNumber_length (s : List Char) (g : Bool) : (argNumber s g).1.length ≤ s.length := by
  unfold argNumber
  split
  · simp
  · split
    · have := parseArgNumber_length ‹List Char›
      simp
      omega
    · exact Nat.le_refl _

theorem width_length (s : List Char) (a g : Bool) : (width s a g).2.1.length ≤ s.length := by
  unfold width
  split
  · simp
  · split
    · simp
    · exact parsenum_length _ _ _

theorem precision_length (s : List Char) (a g : Bool) :
    (precision s a g).2.1.length ≤ s.length := by
  unfold precision
  split
  · simp
  · rename_i c cs
    split
    · have h := argNumber_length cs (g && !a)
      simp only
      generalize argNumber cs (g && !a) = r at h ⊢
      obtain ⟨r1, r2, r3⟩ := r
      cases r1 with
      | nil => simp
      | cons d ds =>
        simp only
        split
        · simp at h ⊢
          omega
        · have := parsenum_length (d :: ds) 0 false
          simp at h this ⊢
          omega
    · exact Nat.le_refl _

theorem verbText_length (s : List Char) (g : Bool) : (verbText s g).2.length ≤ s.length := by
  unfold verbText
  split
  · simp
  · split
    · simp
    · split <;> simp

theorem verbText_ne_nil (s : List Char) (g : Bool) : (verbText s g).1 ≠ [] := by
  unfold verbText
  split
  · simp [noVerbString]
  · split
    · simp
    · split <;> simp [percentBangString]

/-- One verb consumes no more than what follows the percent sign. -/
theorem verb_length (s : List Char) : (verb s).2.length ≤ s.length := by
  have h1 := skipFlags_length s
  have h2 := argNumber_length (skipFlags s) true
  have h3 := width_length (argNumber (skipFlags s) true).1 (argNumber (skipFlags s) true).2.1
    (argNumber (skipFlags s) true).2.2
  simp only [verb]
  generalize width (argNumber (skipFlags s) true).1 (argNumber (skipFlags s) true).2.1
    (argNumber (skipFlags s) true).2.2 = w at h3 ⊢
  have h4 := precision_length w.2.1 w.2.2.1 w.2.2.2
  generalize precision w.2.1 w.2.2.1 w.2.2.2 = p at h4 ⊢
  split
  · have h5 := verbText_length p.2.1 p.2.2.2
    simp only at h5 ⊢
    omega
  · have h5 := argNumber_length p.2.1 p.2.2.2
    have h6 := verbText_length (argNumber p.2.1 p.2.2.2).1 (argNumber p.2.1 p.2.2.2).2.2
    omega

/-- One verb always writes something. -/
theorem verb_ne_nil (s : List Char) : (verb s).1 ≠ [] := by
  simp only [verb]
  intro h
  simp only [List.append_eq_nil] at h
  exact verbText_ne_nil _ _ h.2

/-- The round bound of `doPrintf` is reached by no format it is long enough for: any two
bounds that are at least the length of the format give the same text. -/
theorem doPrintf_fuel (n m : Nat) (s : List Char) (hn : s.length ≤ n) (hm : s.length ≤ m) :
    doPrintf n s = doPrintf m s := by
  induction n generalizing m s with
  | zero =>
    have : s = [] := List.length_eq_zero.mp (Nat.le_zero.mp hn)
    subst this
    cases m <;> simp [doPrintf]
  | succ n ih =>
    cases s with
    | nil => cases m <;> simp [doPrintf]
    | cons c cs =>
      cases m with
      | zero => simp at hm
      | succ m =>
        simp only [doPrintf]
        simp only [List.length_cons, Nat.add_le_add_iff_right] at hn hm
        have hv := verb_length cs
        split
        · rw [ih m (verb cs).2 (by omega) (by omega)]
        · rw [ih m cs hn hm]

/-- A format without a percent sign is written as it stands. -/
theorem doPrintf_of_no_percent (n : Nat) (s : List Char) (hn : s.length ≤ n)
    (h : '%' ∉ s) : doPrintf n s = s := by
  induction s generalizing n with
  | nil => cases n <;> simp [doPrintf]
  | cons c cs ih =>
    cases n with
    | zero => simp at hn
    | succ n =>
      simp only [List.mem_cons, not_or] at h
      simp only [List.length_cons, Nat.add_le_add_iff_right] at hn
      simp only [doPrintf]
      rw [if_neg (fun hc => h.1 hc.symm), ih n hn h.2]

/-- `Sprintf` of a format without a percent sign is the format. -/
theorem Sprintf_of_no_percent (format : String) (h : '%' ∉ format.data) :
    Sprintf format = format := by
  have hd : doPrintf format.length format.data = format.data :=
    doPrintf_of_no_percent _ _ (Nat.le_refl _) h
  unfold Sprintf
  rw [hd]

/-- `Sprintf` of a non-empty format is non-empty. -/
theorem Sprintf_ne_empty (format : String) (h : format ≠ "") : Sprintf format ≠ "" := by
  obtain ⟨data⟩ := format
  cases data with
  | nil => exact absurd rfl h
  | cons c cs =>
    intro hs
    have hd : (Sprintf ⟨c :: cs⟩).data = [] := by rw [hs]
    simp only [Sprintf, String.length, List.length_cons, doPrintf] at hd
    split at hd
    · simp only [List.append_eq_nil] at hd
      exact verb_ne_nil cs hd.1
    · simp at hd

end fmt

/-! ## Lemmas on `strings.Join` -/

namespace strings

theorem foldl_join_length (sep : String) (rest : List String) (a : String) :
    a.length + sep.length * rest.length ≤
      (rest.foldl (fun b s => b ++ sep ++ s) a).length := by
  induction rest generalizing a with
  | nil => simp
  | cons x xs ih =>
    have h := ih (a ++ sep ++ x)
    simp only [List.foldl_cons, List.length_cons, String.length_append] at h ⊢
    rw [Nat.mul_succ]
    omega

/-- Joining with the comma and the blank gives the empty text for no element and for the
single empty element only. -/
theorem Join_eq_empty_iff (elems : List String) :
    Join elems ", " = "" ↔ elems = [] ∨ elems = [""] := by
  constructor
  · intro h
    match elems, h with
    | [], _ => exact Or.inl rfl
    | [a], h =>
      simp only [Join] at h
      exact Or.inr (by rw [h])
    | a :: b :: rest, h =>
      exfalso
      have hl := foldl_join_length ", " (b :: rest) a
      simp only [Join] at h
      rw [h] at hl
      have h2 : (", " : String).length = 2 := by decide
      rw [h2] at hl
      simp only [List.length_cons] at hl
      have h0 : ("" : String).length = 0 := by decide
      omega
  · rintro (h | h) <;> subst h <;> rfl

end strings

/-! ## Lemmas on the loop of `Validator.Validate` -/

namespace Validator

variable {L : Library}

/-- Each round only appends: the slice after a round is the slice before it followed by what the
round gives from the empty slice. -/
theorem step_eq_append (object : L.Object) (errors : List String) (rule : ValidatorRule L) :
    step object errors rule = errors ++ step object [] rule := by
  unfold step
  cases L.execute rule.jsonpath object with
  | error e => simp
  | ok output =>
    cases rule.regexp with
    | some regexp => by_cases h : L.matchString regexp output = true <;> simp [h]
    | none => by_cases h : output = "" <;> simp [h]

theorem foldl_step (object : L.Object) (rules : List (ValidatorRule L)) (acc : List String) :
    rules.foldl (step object) acc = acc ++ errors rules object := by
  induction rules generalizing acc with
  | nil => simp [errors]
  | cons r rs ih =>
    simp only [errors, List.foldl_cons]
    rw [ih (step object acc r), ih (step object [] r), step_eq_append object acc r,
      List.append_assoc]

theorem errors_nil (object : L.Object) : errors ([] : List (ValidatorRule L)) object = [] := rfl

theorem errors_cons (object : L.Object) (r : ValidatorRule L) (rs : List (ValidatorRule L)) :
    errors (r :: rs) object = step object [] r ++ errors rs object := by
  show (r :: rs).foldl (step object) [] = _
  rw [List.foldl_cons, foldl_step]

theorem errors_append (object : L.Object) (a b : List (ValidatorRule L)) :
    errors (a ++ b) object = errors a object ++ errors b object := by
  show (a ++ b).foldl (step object) [] = _
  rw [List.foldl_append, foldl_step]
  rfl

/-- A round adds a message exactly when the rule rejects. -/
theorem step_ne_nil_iff (object : L.Object) (rule : ValidatorRule L) :
    step object [] rule ≠ [] ↔ rule.rejects object := by
  unfold step ValidatorRule.rejects
  cases L.execute rule.jsonpath object with
  | error e => simp
  | ok output =>
    cases rule.regexp with
    | some regexp => by_cases h : L.matchString regexp output = true <;> simp [h]
    | none => by_cases h : output = "" <;> simp [h]

/-- The loop accumulates a message exactly when some rule of the slice rejects. -/
theorem errors_ne_nil_iff (object : L.Object) (rules : List (ValidatorRule L)) :
    errors rules object ≠ [] ↔ ∃ rule ∈ rules, rule.rejects object := by
  induction rules with
  | nil => simp [errors_nil]
  | cons r rs ih =>
    rw [errors_cons]
    simp only [ne_eq, List.append_eq_nil, not_and_or, List.mem_cons, exists_eq_or_imp]
    rw [← step_ne_nil_iff, ← ih]

/-- `Validate` returns an error exactly when the loop accumulated a message. -/
theorem Validate_ne_none_iff (v : Validator L) (uid kind : String) (object : L.Object) :
    v.Validate uid kind object ≠ none ↔ errors (v.rules kind) object ≠ [] := by
  unfold Validate
  cases h : errors (v.rules kind) object with
  | nil => simp
  | cons a as => simp

/-- The text of the error of `Validate` is `fmt.Errorf` of the joined messages. -/
theorem Validate_eq_some (v : Validator L) (uid kind : String) (object : L.Object)
    (h : errors (v.rules kind) object ≠ []) :
    v.Validate uid kind object =
      some (fmt.Errorf (strings.Join (errors (v.rules kind) object) ", ")) := by
  unfold Validate
  cases h' : errors (v.rules kind) object with
  | nil => exact absurd h' h
  | cons a as => simp

/-- When the joined messages hold no percent sign, the text of the error of `Validate` is the
joined messages. -/
theorem Validate_eq_joined (v : Validator L) (uid kind : String) (object : L.Object)
    (h : errors (v.rules kind) object ≠ [])
    (hp : '%' ∉ (strings.Join (errors (v.rules kind) object) ", ").data) :
    v.Validate uid kind object = some (strings.Join (errors (v.rules kind) object) ", ") := by
  rw [Validate_eq_some v uid kind object h]
  unfold fmt.Errorf
  rw [fmt.Sprintf_of_no_percent _ hp]

/-- The text of the error of `Validate` is empty exactly when the loop accumulated the single
empty message. -/
theorem Validate_eq_some_empty_iff (v : Validator L) (uid kind : String) (object : L.Object) :
    v.Validate uid kind object = some "" ↔ errors (v.rules kind) object = [""] := by
  constructor
  · intro hv
    have hne : errors (v.rules kind) object ≠ [] :=
      (Validate_ne_none_iff v uid kind object).mp (by rw [hv]; exact Option.noConfusion)
    rw [Validate_eq_some v uid kind object hne] at hv
    have hs := Option.some.inj hv
    have hj : strings.Join (errors (v.rules kind) object) ", " = "" := by
      by_contra hc
      exact fmt.Sprintf_ne_empty _ hc hs
    rcases (strings.Join_eq_empty_iff _).mp hj with h | h
    · exact absurd h hne
    · exact h
  · intro he
    unfold Validate
    rw [he]
    rfl

end Validator

/-! ## The claims -/

/-- C1: for a registry holding exactly one rule for a kind and an object on which that rule's
extraction succeeds with text `t`, `Validate` returns an error iff the regexp matches `t`
(`MatchString`, which looks for a match anywhere in `t`) when the rule has a regexp, and iff
`t` is not empty when it has none. -/
theorem C1_single_rule_verdict (L : Library) (v : Validator L) (uid kind : String)
    (rule : ValidatorRule L) (object : L.Object) (t : String)
    (hrules : v.rules kind = [rule]) (hexec : L.execute rule.jsonpath object = .ok t) :
    (∀ regexp, rule.regexp = some regexp →
      (v.Validate uid kind object ≠ none ↔ L.matchString regexp t = true)) ∧
    (rule.regexp = none → (v.Validate uid kind object ≠ none ↔ t ≠ "")) := by
  have hiff := Validator.Validate_ne_none_iff v uid kind object
  rw [hrules, Validator.errors_cons, Validator.errors_nil, List.append_nil] at hiff
  constructor
  · intro regexp hre
    rw [hiff]
    unfold Validator.step
    rw [hexec, hre]
    by_cases h : L.matchString regexp t = true <;> simp [h]
  · intro hre
    rw [hiff]
    unfold Validator.step
    rw [hexec, hre]
    by_cases h : t = "" <;> simp [h]

/-- Example for C1: the registry of `TestValidateNoRegexp` (one rule on `.apiVersion`, no
regexp) and its object, whose extraction gives `v1`: an error is returned iff `v1` is not the
empty text. -/
theorem C1_single_rule_verdict_witness :
    ((NewValidator Sample.library).AddRule "Foo"
        ⟨"TestValidateNoRegexp", "\x7b.apiVersion\x7d", "", ""⟩).2.Validate
          "TestValidateNoRegexp" "Foo" [("apiVersion", "v1")] ≠ none ↔ "v1" ≠ "" :=
  (C1_single_rule_verdict Sample.library
    ((NewValidator Sample.library).AddRule "Foo"
      ⟨"TestValidateNoRegexp", "\x7b.apiVersion\x7d", "", ""⟩).2
    "TestValidateNoRegexp" "Foo"
    ⟨⟨"apiVersion".data, false⟩, none, "", "TestValidateNoRegexp"⟩
    [("apiVersion", "v1")] "v1" rfl rfl).2 rfl

/-- C2: `Validate` returns an error iff at least one rule registered under the kind rejects;
the answer depends on the rules of that kind only, not on what other kinds hold; no condition is
put on the messages, so a rejecting rule with the empty message counts; and a kind with no rule
gives no error. -/
theorem C2_error_iff_some_rule_rejects (L : Library) (v : Validator L) (uid kind : String)
    (object : L.Object) :
    (v.Validate uid kind object ≠ none ↔ ∃ rule ∈ v.rules kind, rule.rejects object) ∧
    (∀ (v' : Validator L) (uid' : String), v'.rules kind = v.rules kind →
      v'.Validate uid' kind object = v.Validate uid kind object) ∧
    (v.rules kind = [] → v.Validate uid kind object = none) := by
  refine ⟨?_, ?_, ?_⟩
  · rw [Validator.Validate_ne_none_iff, Validator.errors_ne_nil_iff]
  · intro v' uid' h
    unfold Validator.Validate
    rw [h]
  · intro h
    unfold Validator.Validate
    rw [h]
    rfl

/-- Example for C2: the empty registry of `TestValidateEmpty` gives no error. -/
theorem C2_error_iff_some_rule_rejects_witness :
    (NewValidator Sample.library).Validate "Empty" "Foo" [] = none :=
  (C2_error_iff_some_rule_rejects Sample.library (NewValidator Sample.library) "Empty" "Foo"
    []).2.2 rfl

/-- C3, at the failing input: one rule on `.apiVersion` with no regexp and the message `100%`,
and an object with `apiVersion` set.  The rule rejects, the joined messages are `100%`, and the
text of the error `Validate` returns is `100%!(NOVERB)`: the joined messages are handed to
`fmt.Errorf` as its format. -/
theorem C3_percent_in_message_rewritten :
    Validator.errors (((NewValidator Sample.library).AddRule "Foo"
      ⟨"limit", "\x7b.apiVersion\x7d", "", "100%"⟩).2.rules "Foo")
        ([("apiVersion", "v1")] : List (String × String)) = ["100%"] ∧
    strings.Join ["100%"] ", " = "100%" ∧
    ((NewValidator Sample.library).AddRule "Foo"
      ⟨"limit", "\x7b.apiVersion\x7d", "", "100%"⟩).2.Validate "uid" "Foo"
        [("apiVersion", "v1")] = some "100%!(NOVERB)" := by
  refine ⟨?_, ?_, ?_⟩ <;> decide

/-- C4: a rule whose extraction fails contributes the message `Failed to validate object` at
its position, whatever its own message is, and the loop goes on: the accumulated messages are
those of the rules before it, the generic message, then those of the rules after it, and the
rules before and after give what they give with the failing rule absent. -/
theorem C4_extraction_failure_is_local (L : Library) (v : Validator L) (kind : String)
    (pre post : List (ValidatorRule L)) (rule : ValidatorRule L) (object : L.Object)
    (err : String) (hrules : v.rules kind = pre ++ rule :: post)
    (hexec : L.execute rule.jsonpath object = .error err) :
    Validator.errors (v.rules kind) object =
      Validator.errors pre object ++ "Failed to validate object" ::
        Validator.errors post object ∧
    Validator.errors (pre ++ post) object =
      Validator.errors pre object ++ Validator.errors post object := by
  constructor
  · rw [hrules, Validator.errors_append, Validator.errors_cons]
    unfold Validator.step
    rw [hexec]
    rfl
  · exact Validator.errors_append object pre post

/-- Example for C4: two rules, the first taking an element of the string `apiVersion` (its
extraction fails), the second rejecting with its own message. -/
theorem C4_extraction_failure_is_local_witness :
    Validator.errors ((((NewValidator Sample.library).AddRule "Foo"
        ⟨"first", "\x7b.apiVersion[0]\x7d", "", "own message"⟩).2.AddRule "Foo"
        ⟨"second", "\x7b.apiVersion\x7d", "v1", "second message"⟩).2.rules "Foo")
      ([("apiVersion", "v1")] : List (String × String)) =
      Validator.errors ([] : List (ValidatorRule Sample.library))
          ([("apiVersion", "v1")] : List (String × String)) ++
        "Failed to validate object" ::
          Validator.errors
            [(⟨⟨"apiVersion".data, false⟩, some "v1", "second message", "second"⟩ :
              ValidatorRule Sample.library)]
            ([("apiVersion", "v1")] : List (String × String)) :=
  (C4_extraction_failure_is_local Sample.library
    (((NewValidator Sample.library).AddRule "Foo"
        ⟨"first", "\x7b.apiVersion[0]\x7d", "", "own message"⟩).2.AddRule "Foo"
        ⟨"second", "\x7b.apiVersion\x7d", "v1", "second message"⟩).2
    "Foo" [] [⟨⟨"apiVersion".data, false⟩, some "v1", "second message", "second"⟩]
    ⟨⟨"apiVersion".data, true⟩, none, "own message", "first"⟩
    [("apiVersion", "v1")] "string is not array or slice" rfl rfl).1

/-- The three texts built by `AddRule` hold no percent sign: `fmt.Errorf` returns them as they
stand. -/
theorem AddRule_texts :
    fmt.Errorf "Kind can't be empty" = "Kind can't be empty" ∧
    fmt.Errorf "JSONPath can't be empty" = "JSONPath can't be empty" ∧
    fmt.Errorf "Rule name can't be empty" = "Rule name can't be empty" := by
  refine ⟨?_, ?_, ?_⟩ <;> decide

/-- C5: `AddRule` checks the kind, then the `Jsonpath` text, then the `Name`, before it parses
or compiles anything: an empty kind gives `Kind can't be empty` whatever the rule is, otherwise
an empty `Jsonpath` gives `JSONPath can't be empty` whatever the name and the regexp are,
otherwise an empty `Name` gives `Rule name can't be empty`, whatever the parser and the
compiler of the library would say of the rule. -/
theorem C5_addrule_checks_in_order (L : Library) (v : Validator L) (kind : String)
    (rule : ConfigRule) :
    (kind = "" → (v.AddRule kind rule).1 = some "Kind can't be empty") ∧
    (kind ≠ "" → rule.Jsonpath = "" →
      (v.AddRule kind rule).1 = some "JSONPath can't be empty") ∧
    (kind ≠ "" → rule.Jsonpath ≠ "" → rule.Name = "" →
      (v.AddRule kind rule).1 = some "Rule name can't be empty") := by
  refine ⟨?_, ?_, ?_⟩
  · intro hk
    unfold Validator.AddRule
    rw [if_pos hk, AddRule_texts.1]
  · intro hk hj
    unfold Validator.AddRule
    rw [if_neg hk, if_pos hj, AddRule_texts.2.1]
  · intro hk hj hn
    unfold Validator.AddRule
    rw [if_neg hk, if_neg hj, if_pos hn, AddRule_texts.2.2]

/-- Example for C5: a rule with no name whose `Jsonpath` does not parse and whose `Regexp`
does not compile is refused for its name. -/
theorem C5_addrule_checks_in_order_witness :
    ((NewValidator Sample.library).AddRule "Foo" ⟨"", "\x7b", "[", ""⟩).1 =
      some "Rule name can't be empty" :=
  (C5_addrule_checks_in_order Sample.library (NewValidator Sample.library) "Foo"
    ⟨"", "\x7b", "[", ""⟩).2.2 (by decide) (by decide) rfl

/-- When `AddRule` returns an error: the five causes. -/
theorem AddRule_error_iff (L : Library) (v : Validator L) (kind : String) (rule : ConfigRule) :
    (v.AddRule kind rule).1 ≠ none ↔
      (kind = "" ∨ rule.Jsonpath = "" ∨ rule.Name = "" ∨
        (∃ err, L.parse (kind ++ " " ++ rule.Name) rule.Jsonpath = .error err) ∨
        (rule.Regexp ≠ "" ∧ ∃ err, L.compile rule.Regexp = .error err)) := by
  unfold Validator.AddRule
  by_cases hk : kind = ""
  · simp [hk]
  by_cases hj : rule.Jsonpath = ""
  · simp [hk, hj]
  by_cases hn : rule.Name = ""
  · simp [hk, hj, hn]
  rw [if_neg hk, if_neg hj, if_neg hn]
  cases hp : L.parse (kind ++ " " ++ rule.Name) rule.Jsonpath with
  | error err => simp
  | ok jsonpath =>
    by_cases hr : rule.Regexp = ""
    · simp [hk, hj, hn, hr]
    · cases hc : L.compile rule.Regexp with
      | error err => simp [hr]
      | ok regexp => simp [hk, hj, hn, hr]

/-- C6: if `AddRule` returns an error, which it does exactly for an empty kind, an empty
`Jsonpath`, an empty `Name`, a `Jsonpath` that does not parse, or a non-empty `Regexp` that does
not compile, then the rule is not added: the validator is the one before the call, every kind
maps to the same rule sequence, and every `Validate` call returns what it returned before. -/
theorem C6_failed_addrule_changes_nothing (L : Library) (v : Validator L) (kind : String)
    (rule : ConfigRule) :
    ((v.AddRule kind rule).1 ≠ none ↔
      (kind = "" ∨ rule.Jsonpath = "" ∨ rule.Name = "" ∨
        (∃ err, L.parse (kind ++ " " ++ rule.Name) rule.Jsonpath = .error err) ∨
        (rule.Regexp ≠ "" ∧ ∃ err, L.compile rule.Regexp = .error err))) ∧
    ((v.AddRule kind rule).1 ≠ none →
      (v.AddRule kind rule).2 = v ∧
      (∀ k, (v.AddRule kind rule).2.rules k = v.rules k) ∧
      (∀ uid k object,
        (v.AddRule kind rule).2.Validate uid k object = v.Validate uid k object)) := by
  refine ⟨AddRule_error_iff L v kind rule, ?_⟩
  intro h
  have hv : (v.AddRule kind rule).2 = v := by
    revert h
    unfold Validator.AddRule
    by_cases hk : kind = ""
    · simp [hk]
    by_cases hj : rule.Jsonpath = ""
    · simp [hk, hj]
    by_cases hn : rule.Name = ""
    · simp [hk, hj, hn]
    rw [if_neg hk, if_neg hj, if_neg hn]
    cases hp : L.parse (kind ++ " " ++ rule.Name) rule.Jsonpath with
    | error err => simp
    | ok jsonpath =>
      by_cases hr : rule.Regexp = ""
      · simp [hr]
      · cases hc : L.compile rule.Regexp with
        | error err => simp [hr]
        | ok regexp => simp [hr]
  rw [hv]
  exact ⟨rfl, fun _ => rfl, fun _ _ _ => rfl⟩

/-- Example for C6: `TestValidateEmptyJsonpath` — a rule with an empty `Jsonpath` is refused
and leaves the validator as it was. -/
theorem C6_failed_addrule_changes_nothing_witness :
    ((NewValidator Sample.library).AddRule "Foo"
        ⟨"TestValidateEmptyJsonpath", "", ".*", ""⟩).2 = NewValidator Sample.library :=
  ((C6_failed_addrule_changes_nothing Sample.library (NewValidator Sample.library) "Foo"
    ⟨"TestValidateEmptyJsonpath", "", ".*", ""⟩).2 (by decide)).1

/-- C7: if `AddRule` returns no error, the rule sequence of the kind is the one before the call
with one new rule appended at the end (one longer; a one-element sequence for the first rule of
a kind); the new rule holds the parsed `Jsonpath`, the given name and message, no regexp exactly
when the `Regexp` text is empty and otherwise the compiled `Regexp`; the rule sequence of every
other kind is unchanged. -/
theorem C7_successful_addrule_appends (L : Library) (v : Validator L) (kind : String)
    (rule : ConfigRule) (h : (v.AddRule kind rule).1 = none) :
    ∃ new : ValidatorRule L,
      (v.AddRule kind rule).2.rules kind = v.rules kind ++ [new] ∧
      ((v.AddRule kind rule).2.rules kind).length = (v.rules kind).length + 1 ∧
      (v.rules kind = [] → (v.AddRule kind rule).2.rules kind = [new]) ∧
      L.parse (kind ++ " " ++ rule.Name) rule.Jsonpath = .ok new.jsonpath ∧
      new.name = rule.Name ∧ new.message = rule.Message ∧
      (new.regexp = none ↔ rule.Regexp = "") ∧
      (∀ regexp, new.regexp = some regexp → L.compile rule.Regexp = .ok regexp) ∧
      (∀ k, k ≠ kind → (v.AddRule kind rule).2.rules k = v.rules k) := by
  revert h
  unfold Validator.AddRule
  by_cases hk : kind = ""
  · simp [hk]
  by_cases hj : rule.Jsonpath = ""
  · simp [hk, hj]
  by_cases hn : rule.Name = ""
  · simp [hk, hj, hn]
  rw [if_neg hk, if_neg hj, if_neg hn]
  cases hp : L.parse (kind ++ " " ++ rule.Name) rule.Jsonpath with
  | error err => simp
  | ok jsonpath =>
    by_cases hr : rule.Regexp = ""
    · intro _
      refine ⟨⟨jsonpath, none, rule.Message, rule.Name⟩, ?_⟩
      simp [hr]
      intro k hkk
      simp [hkk]
    · cases hc : L.compile rule.Regexp with
      | error err => simp [hr]
      | ok regexp =>
        intro _
        refine ⟨⟨jsonpath, some regexp, rule.Message, rule.Name⟩, ?_⟩
        simp [hr]
        intro k hkk
        simp [hkk]

/-- Example for C7: the rule of `TestValidateRejectRegexpMatch` is added to the empty
validator; kind `Foo` then holds one rule. -/
theorem C7_successful_addrule_appends_witness :
    ∃ new : ValidatorRule Sample.library,
      ((NewValidator Sample.library).AddRule "Foo"
        ⟨"TestValidateRejectRegexpMatch", "\x7b.apiVersion\x7d", "foo", ""⟩).2.rules "Foo" =
        [new] ∧ new.regexp ≠ none := by
  obtain ⟨new, h1, _, _, _, _, _, h7, _⟩ :=
    C7_successful_addrule_appends Sample.library (NewValidator Sample.library) "Foo"
      ⟨"TestValidateRejectRegexpMatch", "\x7b.apiVersion\x7d", "foo", ""⟩ rfl
  exact ⟨new, h1, fun hn => absurd (h7.mp hn) (by decide)⟩

/-- C8: for a decoded request, `WebhookServer.validate` looks at the operation before the
kind.  An operation other than `CREATE` and `UPDATE` gives the message
`Operation not supported` and leaves `Allowed` false, whatever the kind and the payload are; a
supported operation with a kind other than `PodSecurityPolicy` gives `Kind not supported` and
leaves `Allowed` false.  In both cases the response is the same for every library, validator and
payload: the payload is not deserialized and the validator is not called. -/
theorem C8_operation_then_kind (L : Library) (whsvr : WebhookServer L) (ar : AdmissionReview)
    (req : AdmissionRequest) (response : AdmissionResponse)
    (hreq : ar.Request = some req) (hallowed : response.Allowed = false) :
    (¬ (req.Operation = "CREATE" ∨ req.Operation = "UPDATE") →
      whsvr.validate ar response = some ⟨response.UID, false, "Operation not supported"⟩ ∧
      ∀ (L' : Library) (whsvr' : WebhookServer L') (req' : AdmissionRequest),
        req'.Operation = req.Operation →
        whsvr'.validate ⟨some req'⟩ response = whsvr.validate ar response) ∧
    ((req.Operation = "CREATE" ∨ req.Operation = "UPDATE") →
      req.Kind ≠ "PodSecurityPolicy" →
      whsvr.validate ar response = some ⟨response.UID, false, "Kind not supported"⟩ ∧
      ∀ (L' : Library) (whsvr' : WebhookServer L') (req' : AdmissionRequest),
        req'.Operation = req.Operation → req'.Kind = req.Kind →
        whsvr'.validate ⟨some req'⟩ response = whsvr.validate ar response) := by
  obtain ⟨uid, allowed, message⟩ := response
  simp only at hallowed
  subst hallowed
  constructor
  · intro hop
    have h : whsvr.validate ar ⟨uid, false, message⟩ =
        some ⟨uid, false, "Operation not supported"⟩ := by
      unfold WebhookServer.validate
      rw [hreq]
      simp only [if_neg hop]
    refine ⟨h, ?_⟩
    intro L' whsvr' req' hop'
    rw [h]
    unfold WebhookServer.validate
    simp only [hop', if_neg hop]
  · intro hop hkind
    have h : whsvr.validate ar ⟨uid, false, message⟩ =
        some ⟨uid, false, "Kind not supported"⟩ := by
      unfold WebhookServer.validate
      rw [hreq]
      simp only [if_pos hop, if_neg hkind]
    refine ⟨h, ?_⟩
    intro L' whsvr' req' hop' hkind'
    rw [h]
    unfold WebhookServer.validate
    simp only [hop', hkind', if_pos hop, if_neg hkind]

/-- Example for C8: a `DELETE` of a `PodSecurityPolicy` is refused for its operation. -/
theorem C8_operation_then_kind_witness :
    Sample.server.validate ⟨some { Sample.request with Operation := "DELETE" }⟩
      ⟨"u-1", false, ""⟩ = some ⟨"u-1", false, "Operation not supported"⟩ :=
  ((C8_operation_then_kind Sample.library Sample.server
    ⟨some { Sample.request with Operation := "DELETE" }⟩
    { Sample.request with Operation := "DELETE" } ⟨"u-1", false, ""⟩ rfl rfl).1
      (by decide)).1

/-- C9: for a decoded request and a response whose `Allowed` is false, as `serve` hands it
over, `WebhookServer.validate` sets `Allowed` to true iff the operation is `CREATE` or `UPDATE`,
the kind is `PodSecurityPolicy`, the raw payload deserializes and `Validator.Validate` returns
no error for that kind and object.  When the payload does not deserialize the message is the
deserialization error, when `Validate` returns an error the message is its text, and `Allowed`
stays false in both cases. -/
theorem C9_allowed_iff_validated (L : Library) (whsvr : WebhookServer L)
    (ar : AdmissionReview) (req : AdmissionRequest) (response : AdmissionResponse)
    (hreq : ar.Request = some req) (hallowed : response.Allowed = false) :
    ∃ out, whsvr.validate ar response = some out ∧ out.UID = response.UID ∧
      (out.Allowed = true ↔
        ((req.Operation = "CREATE" ∨ req.Operation = "UPDATE") ∧
          req.Kind = "PodSecurityPolicy" ∧
          ∃ object, L.unmarshal req.Raw = .ok object ∧
            whsvr.validator.Validate req.UID req.Kind object = none)) ∧
      (∀ err, (req.Operation = "CREATE" ∨ req.Operation = "UPDATE") →
        req.Kind = "PodSecurityPolicy" → L.unmarshal req.Raw = .error err →
        out.Allowed = false ∧ out.Message = err) ∧
      (∀ object err, (req.Operation = "CREATE" ∨ req.Operation = "UPDATE") →
        req.Kind = "PodSecurityPolicy" → L.unmarshal req.Raw = .ok object →
        whsvr.validator.Validate req.UID req.Kind object = some err →
        out.Allowed = false ∧ out.Message = err) := by
  obtain ⟨uid, allowed, message⟩ := response
  simp only at hallowed
  subst hallowed
  unfold WebhookServer.validate
  rw [hreq]
  by_cases hop : req.Operation = "CREATE" ∨ req.Operation = "UPDATE"
  · by_cases hkind : req.Kind = "PodSecurityPolicy"
    · simp only [if_pos hop, if_pos hkind]
      cases hu : L.unmarshal req.Raw with
      | error e => simp [hop, hkind]
      | ok object =>
        cases hv : whsvr.validator.Validate req.UID "PodSecurityPolicy" object with
        | some e =>
          simp [hop, hkind, hv]
          intro o err ho hv'
          subst ho
          rw [hv] at hv'
          exact Option.some.inj hv'
        | none =>
          simp [hop, hkind, hv]
          intro o err ho hv'
          subst ho
          rw [hv] at hv'
          exact Option.noConfusion hv'
    · simp [hop, hkind]
  · simp [hop]

/-- Example for C9: the request of the examples, on a server whose one rule rejects it. -/
theorem C9_allowed_iff_validated_witness :
    ∃ out, Sample.server.validate ⟨some Sample.request⟩ ⟨"u-1", false, ""⟩ = some out ∧
      out.UID = "u-1" :=
  (C9_allowed_iff_validated Sample.library Sample.server ⟨some Sample.request⟩ Sample.request
    ⟨"u-1", false, ""⟩ rfl rfl).imp (fun _ h => ⟨h.1, h.2.1⟩)

/-- The length of the request body of the examples. -/
theorem Sample.ascii_length (s : String) : (Sample.ascii s).length = s.length := by
  unfold Sample.ascii
  rw [List.length_map]
  rfl

set_option maxRecDepth 100000 in
/-- C10, as stated, fails: the server of the examples holds one rule with no message; the
request of the examples is rejected by it, and the envelope has `allowed` false and the empty
`status.message`. -/
theorem C10_empty_message_counterexample :
    (Sample.server.serve Sample.httpRequest).map Served.response =
      some (some ⟨"u-1", false, ""⟩) := by
  have hlen : ¬ (Sample.ascii Sample.bodyText).length = 0 := by
    rw [Sample.ascii_length]
    decide
  have hdec : Sample.library.decode (Sample.ascii Sample.bodyText) =
      .ok ⟨some Sample.request⟩ := by
    show Sample.decode (Sample.ascii Sample.bodyText) = _
    unfold Sample.decode
    exact if_pos rfl
  have hval : Sample.server.validate ⟨some Sample.request⟩ ⟨"u-1", false, ""⟩ =
      some ⟨"u-1", false, ""⟩ := by
    have hun : Sample.library.unmarshal Sample.request.Raw = .ok Sample.object := by
      show Sample.unmarshal (Sample.ascii Sample.objectText) = _
      unfold Sample.unmarshal
      exact if_pos rfl
    have hv : Sample.server.validator.Validate Sample.request.UID "PodSecurityPolicy"
        Sample.object = some "" := by decide
    unfold WebhookServer.validate
    simp only [Sample.request] at hun hv ⊢
    simp [hun, hv]
  unfold WebhookServer.serve
  simp only [Sample.httpRequest, hlen, hdec, if_false, ne_eq, not_true_eq_false]
  simp only [Sample.request] at hval ⊢
  rw [hval]
  rfl

/-- C10, amended: take the texts of the decode and deserialization errors of the library to be
non-empty.  In every envelope `serve` answers with `allowed` false, `status.message` is the
empty text exactly when the rejection comes from the rules and the accumulated messages are the
single empty message (one rule rejects, and its configured message is empty); in every other
rejection (decode failure, unsupported operation, unsupported kind, bad embedded payload, any
other outcome of the rules) it is non-empty. -/
theorem C10_message_empty_iff_single_empty (L : Library) (whsvr : WebhookServer L)
    (r : Request) (out : Served) (resp : AdmissionResponse)
    (hdecode : ∀ body err, L.decode body = .error err → err ≠ "")
    (hunmarshal : ∀ raw err, L.unmarshal raw = .error err → err ≠ "")
    (hserve : whsvr.serve r = some out) (hresp : out.response = some resp)
    (hdenied : resp.Allowed = false) :
    resp.Message = "" ↔
    ∃ body req object, r.Body = some (.ok body) ∧ L.decode body = .ok ⟨some req⟩ ∧
      (req.Operation = "CREATE" ∨ req.Operation = "UPDATE") ∧
      req.Kind = "PodSecurityPolicy" ∧ L.unmarshal req.Raw = .ok object ∧
      Validator.errors (whsvr.validator.rules req.Kind) object = [""] := by
  have hsend : ∀ x : AdmissionResponse, send L x = out → x = resp := by
    intro x hx
    rw [← hx] at hresp
    exact Option.some.inj hresp
  have hnone : ∀ calls : List Call, (⟨calls, none⟩ : Served) = out → False := by
    intro calls hx
    rw [← hx] at hresp
    exact Option.noConfusion hresp
  unfold WebhookServer.serve at hserve
  rcases hbody : r.Body with _ | (e | body)
  · rw [hbody] at hserve
    simp only [List.length_nil, if_true] at hserve
    exact (hnone _ (Option.some.inj hserve)).elim
  · rw [hbody] at hserve
    exact (hnone _ (Option.some.inj hserve)).elim
  · rw [hbody] at hserve
    simp only at hserve
    by_cases hlen : body.length = 0
    · rw [if_pos hlen] at hserve
      exact (hnone _ (Option.some.inj hserve)).elim
    rw [if_neg hlen] at hserve
    by_cases hct : r.ContentType ≠ "application/json"
    · rw [if_pos hct] at hserve
      exact (hnone _ (Option.some.inj hserve)).elim
    rw [if_neg hct] at hserve
    cases hd : L.decode body with
    | error err =>
      rw [hd] at hserve
      have := hsend _ (Option.some.inj hserve)
      subst this
      constructor
      · intro h
        exact absurd h (hdecode body err hd)
      · rintro ⟨body', req', object', hb', hd', -⟩
        cases hb'
        rw [hd] at hd'
        exact Except.noConfusion hd'
    | ok ar =>
      rw [hd] at hserve
      obtain ⟨request⟩ := ar
      cases request with
      | none => exact Option.noConfusion hserve
      | some req =>
        simp only at hserve
        unfold WebhookServer.validate at hserve
        simp only at hserve
        have hsame : ∀ body' req', (some (Except.ok body) : Option (Except String Bytes)) =
            some (.ok body') → L.decode body' = .ok ⟨some req'⟩ → req' = req := by
          intro body' req' hb' hd'
          cases hb'
          rw [hd] at hd'
          cases hd'
          rfl
        by_cases hop : req.Operation = "CREATE" ∨ req.Operation = "UPDATE"
        · rw [if_pos hop] at hserve
          by_cases hkind : req.Kind = "PodSecurityPolicy"
          · rw [if_pos hkind] at hserve
            cases hu : L.unmarshal req.Raw with
            | error err =>
              rw [hu] at hserve
              have := hsend _ (Option.some.inj hserve)
              subst this
              constructor
              · intro h
                exact absurd h (hunmarshal _ err hu)
              · rintro ⟨body', req', object', hb', hd', -, -, hu', -⟩
                have := hsame body' req' hb' hd'
                subst this
                rw [hu] at hu'
                exact Except.noConfusion hu'
            | ok object =>
              rw [hu] at hserve
              simp only at hserve
              cases hv : whsvr.validator.Validate req.UID req.Kind object with
              | none =>
                rw [hv] at hserve
                have := hsend _ (Option.some.inj hserve)
                subst this
                exact Bool.noConfusion hdenied
              | some err =>
                rw [hv] at hserve
                have := hsend _ (Option.some.inj hserve)
                subst this
                have hiff := Validator.Validate_eq_some_empty_iff whsvr.validator req.UID
                  req.Kind object
                constructor
                · intro hm
                  have hm' : err = "" := hm
                  subst hm'
                  exact ⟨body, req, object, rfl, hd, hop, hkind, hu, hiff.mp hv⟩
                · rintro ⟨body', req', object', hb', hd', -, -, hu', he'⟩
                  have := hsame body' req' hb' hd'
                  subst this
                  rw [hu] at hu'
                  cases hu'
                  have := hiff.mpr he'
                  rw [hv] at this
                  exact Option.some.inj this
          · rw [if_neg hkind] at hserve
            have := hsend _ (Option.some.inj hserve)
            subst this
            constructor
            · intro h
              exact absurd h (by show ("Kind not supported" : String) ≠ ""; decide)
            · rintro ⟨body', req', object', hb', hd', -, hk', -⟩
              have := hsame body' req' hb' hd'
              subst this
              exact absurd hk' hkind
        · rw [if_neg hop] at hserve
          have := hsend _ (Option.some.inj hserve)
          subst this
          constructor
          · intro h
            exact absurd h (by show ("Operation not supported" : String) ≠ ""; decide)
          · rintro ⟨body', req', object', hb', hd', ho', -⟩
            have := hsame body' req' hb' hd'
            subst this
            exact absurd ho' hop

set_option maxRecDepth 100000 in
/-- Example for the amended C10: the server of the examples receives a body that does not
decode; the envelope carries the decode error, which is not empty, and the rejection does not
come from the rules. -/
theorem C10_message_empty_iff_single_empty_witness :
    ("couldn\x27t get version/kind; json parse error" : String) = "" ↔
    ∃ body req object, (some (.ok [0]) : Option (Except String Bytes)) = some (.ok body) ∧
      Sample.library.decode body = .ok ⟨some req⟩ ∧
      (req.Operation = "CREATE" ∨ req.Operation = "UPDATE") ∧
      req.Kind = "PodSecurityPolicy" ∧ Sample.library.unmarshal req.Raw = .ok object ∧
      Validator.errors (Sample.server.validator.rules req.Kind) object = [""] :=
  C10_message_empty_iff_single_empty Sample.library Sample.server
    ⟨some (.ok [0]), "application/json"⟩
    (send Sample.library ⟨"", false, "couldn\x27t get version/kind; json parse error"⟩)
    ⟨"", false, "couldn\x27t get version/kind; json parse error"⟩
    (by
      intro body err h
      have h' : Sample.decode body = .error err := h
      unfold Sample.decode at h'
      split at h'
      · exact Except.noConfusion h'
      · split at h'
        · exact Except.noConfusion h'
        · rw [← Except.error.inj h']
          decide)
    (by
      intro raw err h
      have h' : Sample.unmarshal raw = .error err := h
      unfold Sample.unmarshal at h'
      split at h'
      · exact Except.noConfusion h'
      · rw [← Except.error.inj h']
        decide)
    (by
      have hd : Sample.library.decode [0] =
          .error "couldn\x27t get version/kind; json parse error" := by
        show Sample.decode [0] = _
        unfold Sample.decode
        rw [if_neg (by
          intro h
          have := congrArg List.length h
          rw [Sample.ascii_length] at this
          revert this
          decide), if_neg (by
          intro h
          have := congrArg List.length h
          rw [Sample.ascii_length] at this
          revert this
          decide)]
      unfold WebhookServer.serve
      simp [hd])
    rfl rfl

/-! ### `serve` past the body and content-type checks -/

/-- On a review with a request, `validate` returns a response and keeps its UID. -/
theorem validate_of_request (L : Library) (whsvr : WebhookServer L)
    (req : AdmissionRequest) :
    ∃ resp, whsvr.validate ⟨some req⟩ ⟨req.UID, false, ""⟩ = some resp ∧
      resp.UID = req.UID := by
  unfold WebhookServer.validate
  simp only
  by_cases hop : req.Operation = "CREATE" ∨ req.Operation = "UPDATE"
  · by_cases hkind : req.Kind = "PodSecurityPolicy"
    · simp only [if_pos hop, if_pos hkind]
      cases L.unmarshal req.Raw with
      | error e => simp
      | ok object =>
        simp only
        cases hv : whsvr.validator.Validate req.UID req.Kind object with
        | some e => exact ⟨_, rfl, rfl⟩
        | none => exact ⟨_, rfl, rfl⟩
    · simp [hop, hkind]
  · simp [hop]

/-- A body that does not decode is answered with an envelope: `allowed` false, the decode error
as message, the UID unset. -/
theorem serve_of_decode_error (L : Library) (whsvr : WebhookServer L) (r : Request)
    (body : Bytes) (err : String) (hbody : r.Body = some (.ok body))
    (hlen : body.length ≠ 0) (hct : r.ContentType = "application/json")
    (hd : L.decode body = .error err) :
    whsvr.serve r = some (send L ⟨"", false, err⟩) := by
  unfold WebhookServer.serve
  rw [hbody]
  simp only [if_neg hlen, hct, ne_eq, not_true_eq_false, if_false, hd]

/-- A body that decodes into a review with a request is answered with an envelope whose UID is
the UID of the request, whichever branch `validate` takes. -/
theorem serve_of_request (L : Library) (whsvr : WebhookServer L) (r : Request)
    (body : Bytes) (req : AdmissionRequest) (hbody : r.Body = some (.ok body))
    (hlen : body.length ≠ 0) (hct : r.ContentType = "application/json")
    (hd : L.decode body = .ok ⟨some req⟩) :
    ∃ resp, whsvr.validate ⟨some req⟩ ⟨req.UID, false, ""⟩ = some resp ∧
      resp.UID = req.UID ∧ whsvr.serve r = some (send L resp) := by
  obtain ⟨resp, hv, huid⟩ := validate_of_request L whsvr req
  refine ⟨resp, hv, huid, ?_⟩
  unfold WebhookServer.serve
  rw [hbody]
  simp only [if_neg hlen, hct, ne_eq, not_true_eq_false, if_false, hd, hv]

/-- A body that decodes into a review with no request makes `serve` dereference the nil
`ar.Request`: no envelope is written. -/
theorem serve_of_no_request (L : Library) (whsvr : WebhookServer L) (r : Request)
    (body : Bytes) (hbody : r.Body = some (.ok body))
    (hlen : body.length ≠ 0) (hct : r.ContentType = "application/json")
    (hd : L.decode body = .ok ⟨none⟩) :
    whsvr.serve r = none := by
  unfold WebhookServer.serve
  rw [hbody]
  simp only [if_neg hlen, hct, ne_eq, not_true_eq_false, if_false, hd]

set_option maxRecDepth 100000 in
/-- C11, at the failing input: a non-empty body declared as JSON that decodes into a review
with no `request` member.  `serve` gets past the body and content-type checks, the decoder
returns no error, and `ar.Request.UID` dereferences the nil pointer: `serve` does not complete
and no envelope is produced. -/
theorem C11_review_without_request_not_answered :
    Sample.bareRequest.Body = some (.ok (Sample.ascii Sample.bareText)) ∧
    (Sample.ascii Sample.bareText).length ≠ 0 ∧
    Sample.bareRequest.ContentType = "application/json" ∧
    Sample.library.decode (Sample.ascii Sample.bareText) = .ok ⟨none⟩ ∧
    Sample.server.serve Sample.bareRequest = none := by
  have hlen : (Sample.ascii Sample.bareText).length ≠ 0 := by
    rw [Sample.ascii_length]
    decide
  have hd : Sample.library.decode (Sample.ascii Sample.bareText) = .ok ⟨none⟩ := by
    show Sample.decode (Sample.ascii Sample.bareText) = _
    unfold Sample.decode
    rw [if_neg (by
      intro h
      have := congrArg List.length h
      rw [Sample.ascii_length, Sample.ascii_length] at this
      revert this
      decide), if_pos rfl]
  exact ⟨rfl, hlen, rfl, hd,
    serve_of_no_request Sample.library Sample.server Sample.bareRequest _ rfl hlen rfl hd⟩

/-- C12, as stated, fails: a request with an empty body and the content type `text/plain` is
answered 400, not 415; the body is checked first. -/
theorem C12_empty_body_wrong_type_counterexample :
    Sample.server.serve ⟨some (.ok []), "text/plain"⟩ =
      some ⟨[Call.Error "Request body empty" 400], none⟩ ∧
    ("text/plain" : String) ≠ "application/json" ∧ StatusBadRequest ≠
      StatusUnsupportedMediaType := by
  refine ⟨rfl, ?_, ?_⟩ <;> decide

/-- C12, amended: `serve` answers 400 when the body is empty (nil, or read as no bytes),
whatever the content type is, and 415 when the body was read, is not empty, and the declared
content type is anything other than exactly `application/json`.  In both cases that one call of
`http.Error` is all `serve` does: no envelope is built, and the answer is the same for every
library and validator, so nothing is decoded, dispatched or evaluated. -/
theorem C12_transport_checks_first (L : Library) (whsvr : WebhookServer L) (r : Request) :
    ((r.Body = none ∨ r.Body = some (.ok [])) →
      whsvr.serve r = some ⟨[Call.Error "Request body empty" 400], none⟩ ∧
      ∀ (L' : Library) (whsvr' : WebhookServer L'), whsvr'.serve r = whsvr.serve r) ∧
    (∀ body, r.Body = some (.ok body) → body ≠ [] →
      r.ContentType ≠ "application/json" →
      whsvr.serve r = some ⟨[Call.Error
        "Invalid content type. Expected \x60application/json\x60" 415], none⟩ ∧
      ∀ (L' : Library) (whsvr' : WebhookServer L'), whsvr'.serve r = whsvr.serve r) := by
  constructor
  · intro hbody
    have h : ∀ (L' : Library) (whsvr' : WebhookServer L'),
        whsvr'.serve r = some ⟨[Call.Error "Request body empty" 400], none⟩ := by
      intro L' whsvr'
      unfold WebhookServer.serve
      rcases hbody with hb | hb <;> rw [hb] <;> rfl
    exact ⟨h L whsvr, fun L' whsvr' => (h L' whsvr').trans (h L whsvr).symm⟩
  · intro body hbody hne hct
    have hlen : body.length ≠ 0 := fun hl => hne (List.length_eq_zero.mp hl)
    have h : ∀ (L' : Library) (whsvr' : WebhookServer L'),
        whsvr'.serve r = some ⟨[Call.Error
          "Invalid content type. Expected \x60application/json\x60" 415], none⟩ := by
      intro L' whsvr'
      unfold WebhookServer.serve
      rw [hbody]
      simp only [if_neg hlen, if_pos hct]
      rfl
    exact ⟨h L whsvr, fun L' whsvr' => (h L' whsvr').trans (h L whsvr).symm⟩

/-- Example for the amended C12: a one-byte body declared as `text/plain` is answered 415. -/
theorem C12_transport_checks_first_witness :
    Sample.server.serve ⟨some (.ok [123]), "text/plain"⟩ =
      some ⟨[Call.Error "Invalid content type. Expected \x60application/json\x60" 415],
        none⟩ :=
  ((C12_transport_checks_first Sample.library Sample.server
    ⟨some (.ok [123]), "text/plain"⟩).2 [123] rfl (by decide) (by decide)).1

end Webhook
